import Mathlib

/-!
Verification development for `render_gantt.py` (Gantt chart generator for
Microsoft Planner exports).  The definitions below are a shallow embedding of
the loader/normalizer and annotator logic of the source file: dates are
modelled as day numbers (`Int`, proleptic Gregorian day count relative to
1970-01-01), cells of the tabular input as `Option String` (with `none` for a
missing cell, pandas `NaN`), and the pandas pipeline of `load_tasks`,
`exclude_buckets` and `main` as total Lean functions returning `Except`.
-/

namespace GanttGen

/-! ## Python string primitives (ASCII fragment)

Models of `str.strip()`, `str.split()`, `str.title()`, `str.lower()`,
`str.upper()` restricted to ASCII data, which is all the pipeline's fixed
tables and the claims exercise. -/

/-- ASCII whitespace as recognised by Python `str.strip()` / `str.split()`. -/
def pyIsSpace (c : Char) : Bool :=
  c == ' ' || c == '\t' || c == '\n' || c == '\x0d' || c == '\x0b' || c == '\x0c'

/-- `str.strip()` on a character list. -/
def pyStripList (l : List Char) : List Char :=
  ((l.dropWhile pyIsSpace).reverse.dropWhile pyIsSpace).reverse

/-- `str.strip()`. -/
def pyStrip (s : String) : String :=
  ⟨pyStripList s.data⟩

/-- `str.lower()` (ASCII model, character-wise). -/
def pyLower (s : String) : String :=
  ⟨s.data.map Char.toLower⟩

/-- Helper for `str.split()` (no argument): accumulates the current word
(reversed) and splits on runs of whitespace, discarding empty pieces. -/
def splitWSAux : List Char → List Char → List String
  | [], acc => if acc.isEmpty then [] else [⟨acc.reverse⟩]
  | c :: cs, acc =>
      if pyIsSpace c then
        if acc.isEmpty then splitWSAux cs [] else (⟨acc.reverse⟩ : String) :: splitWSAux cs []
      else
        splitWSAux cs (c :: acc)

/-- Python `str.split()` with no separator: split on whitespace runs,
dropping empty tokens. -/
def pySplitWS (s : String) : List String :=
  splitWSAux s.data []

/-- Helper for `str.title()`: the boolean state records whether the previous
character was cased (ASCII alphabetic). A cased character after a non-cased
one is upper-cased, a cased character after a cased one is lower-cased. -/
def pyTitleAux : Bool → List Char → List Char
  | _, [] => []
  | prevCased, c :: cs =>
      (if c.isAlpha then (if prevCased then c.toLower else c.toUpper) else c)
        :: pyTitleAux c.isAlpha cs

/-- Python `str.title()` (ASCII model). -/
def pyTitle (s : String) : String :=
  ⟨pyTitleAux false s.data⟩

/-! ## Dates

`pd.to_datetime(..., format="%m/%d/%Y", errors="coerce")` is modelled by
`parseMDY`: strptime's regexes for `%m` (`1[0-2]|0[1-9]|[1-9]`), `%d`
(`3[01]|[12]\d|0[1-9]|[1-9]`) and `%Y` (four digits), an exact whole-string
match, and the `datetime` constructor's calendar validation; a successful
parse is converted to a day number with the standard civil-from-days
algorithm. Any failure yields `none` (pandas `NaT`). -/

def isLeapYear (y : Nat) : Bool :=
  y % 4 == 0 && (y % 100 != 0 || y % 400 == 0)

def daysInMonth (y m : Nat) : Nat :=
  if m == 2 then (if isLeapYear y then 29 else 28)
  else if m == 4 || m == 6 || m == 9 || m == 11 then 30
  else 31

/-- Day number of the Gregorian date `y-m-d` relative to 1970-01-01
(Howard Hinnant's `days_from_civil`; requires `1 ≤ y`, `1 ≤ m ≤ 12`,
`1 ≤ d`, which the parser guarantees). -/
def daysFromCivil (y m d : Nat) : Int :=
  let yp : Nat := if m ≤ 2 then y - 1 else y
  let era : Nat := yp / 400
  let yoe : Nat := yp - era * 400
  let mp : Nat := if m > 2 then m - 3 else m + 9
  let doy : Nat := (153 * mp + 2) / 5 + (d - 1)
  let doe : Nat := yoe * 365 + yoe / 4 - yoe / 100 + doy
  (era * 146097 + doe : Int) - 719468

def digitVal (c : Char) : Nat :=
  c.toNat - 48

/-- Parse a one- or two-digit field under strptime's alternation for `%m`/`%d`:
with two leading digits the two-digit value must lie in `1..hi` (otherwise the
one-digit alternative would leave a digit in front of the literal `/`, which
cannot match); a single leading digit must be `1..9`. -/
def parseNum2 (hi : Nat) : List Char → Option (Nat × List Char)
  | [] => none
  | [a] =>
      if a.isDigit && decide (1 ≤ digitVal a) then some (digitVal a, []) else none
  | a :: b :: rest =>
      if a.isDigit then
        if b.isDigit then
          let v := digitVal a * 10 + digitVal b
          if 1 ≤ v && v ≤ hi then some (v, rest) else none
        else
          if 1 ≤ digitVal a then some (digitVal a, b :: rest) else none
      else none

/-- Parse exactly four digits (strptime `%Y`). -/
def parseYear4 : List Char → Option (Nat × List Char)
  | a :: b :: c :: d :: rest =>
      if a.isDigit && b.isDigit && c.isDigit && d.isDigit then
        some (((digitVal a * 10 + digitVal b) * 10 + digitVal c) * 10 + digitVal d, rest)
      else none
  | _ => none

/-- `pd.to_datetime(value, format="%m/%d/%Y", errors="coerce")` on a single
string cell: `some` day number on success, `none` (`NaT`) otherwise. -/
def parseMDY (s : String) : Option Int :=
  match parseNum2 12 s.data with
  | none => none
  | some (m, r1) =>
    match r1 with
    | '/' :: r2 =>
      match parseNum2 31 r2 with
      | none => none
      | some (d, r3) =>
        match r3 with
        | '/' :: r4 =>
          match parseYear4 r4 with
          | some (y, []) =>
              if 1 ≤ y && d ≤ daysInMonth y m then some (daysFromCivil y m d) else none
          | _ => none
        | _ => none
    | _ => none

/-! ## Fixed tables of the source -/

/-- `AVATAR_COLORS` from the source: the fixed 15-colour avatar palette. -/
def AVATAR_COLORS : List String :=
  ["#E57373", "#81C784", "#64B5F6", "#FFD54F", "#BA68C8",
   "#4DB6AC", "#FF8A65", "#A1887F", "#90A4AE", "#F06292",
   "#AED581", "#7986CB", "#FFB74D", "#4DD0E1", "#9575CD"]

/-- `PROGRESS_TO_PERCENT` from the source, as an association list. -/
def PROGRESS_TO_PERCENT : List (String × Nat) :=
  [("Not started", 0), ("In progress", 50), ("Complete", 100), ("Completed", 100)]

/-- `DEFAULT_DURATION_DAYS` from the source. -/
def DEFAULT_DURATION_DAYS : Int := 7

/-- The per-row progress computation of `load_tasks` (lines 93-99) when the
`Progress` column is present: `.str.strip().str.title().map(PROGRESS_TO_PERCENT)
.fillna(0)` applied to one cell (`none` is a `NaN` cell, which the chain keeps
as `NaN` and `fillna` turns into `0`). -/
def progressValue (cell : Option String) : Nat :=
  match cell with
  | none => 0
  | some s => (PROGRESS_TO_PERCENT.lookup (pyTitle (pyStrip s))).getD 0

/-! ## Schedule derivation (`_derive_schedule`) -/

/-- `if pd.isna(x) and not pd.isna(y): x = y` — fall back to the second
date when the first is absent. -/
def orElseDate (x y : Option Int) : Option Int :=
  match x, y with
  | none, some c => some c
  | s, _ => s

/-- `if pd.isna(start) and not pd.isna(finish): start = finish - timedelta(7)`. -/
def deriveFillStart (start finish : Option Int) : Option Int :=
  match start, finish with
  | none, some f => some (f - DEFAULT_DURATION_DAYS)
  | s, _ => s

/-- `if pd.isna(finish) and not pd.isna(start): finish = start + timedelta(7)`. -/
def deriveFillFinish (finish start : Option Int) : Option Int :=
  match finish, start with
  | none, some s => some (s + DEFAULT_DURATION_DAYS)
  | f, _ => f

/-- `if not isna(start) and not isna(finish) and finish < start: finish = start`. -/
def deriveClampFinish (start finish : Option Int) : Option Int :=
  match start, finish with
  | some s, some f => if f < s then some s else some f
  | _, f => f

/-- `_derive_schedule` from the source, on the four coerced date cells of one
row (day numbers). The sequential reassignments of lines 152-172, with each
assignment's right-hand side as a helper function. -/
def deriveSchedule (startDate dueDate createdDate completedDate : Option Int) :
    Option Int × Option Int :=
  let start1 := orElseDate startDate createdDate
  let finish1 := orElseDate dueDate completedDate
  let start2 := deriveFillStart start1 finish1
  let finish2 := deriveFillFinish finish1 start2
  (start2, deriveClampFinish start2 finish2)

/-! ## Glob matching (`fnmatch.fnmatchcase`)

A direct matcher equivalent to `fnmatch.translate` followed by an anchored
regex match: `*` matches any (possibly empty) run, `?` any single character,
`[...]` a character class (leading `!` negates; a `]` directly after the
opening `[`/`[!` is a literal member; `a-b` is a codepoint range, with a `-`
at either end literal; an unclosed `[` is a literal `[`); every other
character matches itself, case-sensitively. -/

/-- Split a class body at the first `]`, returning the body and the rest of
the pattern; `none` when no closing `]` exists. -/
def splitAtRBracket : List Char → Option (List Char × List Char)
  | [] => none
  | c :: cs =>
      if c == ']' then some ([], cs)
      else
        match splitAtRBracket cs with
        | some (a, b) => some (c :: a, b)
        | none => none

/-- Leading `!` of a class body negates it (`fnmatch.translate`). -/
def stripNeg : List Char → Bool × List Char
  | '!' :: rest => (true, rest)
  | cs => (false, cs)

/-- Scan a character class after the opening `[`: returns (negated, body,
rest of pattern), or `none` for an unclosed class. A `]` directly after the
(possibly negated) opening is a literal member of the body. -/
def scanClass (cs : List Char) : Option (Bool × List Char × List Char) :=
  match (stripNeg cs).2 with
  | ']' :: rest2 =>
      match splitAtRBracket rest2 with
      | some (a, b) => some ((stripNeg cs).1, ']' :: a, b)
      | none => none
  | _ =>
      match splitAtRBracket (stripNeg cs).2 with
      | some (a, b) => some ((stripNeg cs).1, a, b)
      | none => none

/-- Membership of a character in a class body (`a-b` ranges by codepoint;
a `-` at the start or end of the body is a literal member). -/
def classMatches : List Char → Char → Bool
  | [], _ => false
  | a :: '-' :: b :: rest, c =>
      (a.val ≤ c.val && c.val ≤ b.val) || classMatches rest c
  | a :: rest, c => a == c || classMatches rest c

/-- `fnmatch`'s anchored matcher, with an explicit fuel argument for
structural recursion. Every recursive call shrinks `p.length + s.length` by
at least one while spending exactly one unit of fuel, so starting the fuel at
`p.length + s.length` (as `fnMatch` does) the fuel-exhausted branch is never
reached. -/
def fnMatchGo : Nat → List Char → List Char → Bool
  | _, [], s => s.isEmpty
  | 0, _ :: _, _ => false
  | fuel + 1, '*' :: ps, s =>
      fnMatchGo fuel ps s ||
        (match s with
         | [] => false
         | _ :: s2 => fnMatchGo fuel ('*' :: ps) s2)
  | fuel + 1, '?' :: ps, s =>
      (match s with
       | [] => false
       | _ :: s2 => fnMatchGo fuel ps s2)
  | fuel + 1, '[' :: ps, s =>
      (match scanClass ps with
       | some (neg, items, rest) =>
           (match s with
            | [] => false
            | c :: s2 => (neg != classMatches items c) && fnMatchGo fuel rest s2)
       | none =>
           (match s with
            | '[' :: s2 => fnMatchGo fuel ps s2
            | _ => false))
  | fuel + 1, c :: ps, s =>
      (match s with
       | d :: s2 => c == d && fnMatchGo fuel ps s2
       | [] => false)

/-- Does glob pattern `p` match the whole string `s`? -/
def fnMatch (p s : List Char) : Bool :=
  fnMatchGo (p.length + s.length) p s

/-- `fnmatch.fnmatchcase(name, pattern)`. -/
def fnmatchcase (name pat : String) : Bool :=
  fnMatch pat.data name.data

/-! ## Data model

A raw row holds the recognised cells as `Option String` (`none` = missing
cell / `NaN`). The `columns` list of an `Input` records which columns the
file actually has (pandas `df.columns`); a cell slot of a row is only
consulted when its column is present, mirroring `row.get` returning `None`
for a missing column. -/

structure RawRow where
  taskName : Option String := none
  bucketName : Option String := none
  assignedTo : Option String := none
  priority : Option String := none
  progress : Option String := none
  late : Option String := none
  createdDate : Option String := none
  startDate : Option String := none
  dueDate : Option String := none
  completedDate : Option String := none
deriving DecidableEq

/-- The input file as the loader sees it: whether the path exists, the
(path) suffix, the workbook's sheet names (consulted only for `.xlsx`/`.xls`),
and the tabular content. -/
structure Input where
  pathExists : Bool
  suffix : String
  sheets : List String
  columns : List String
  rows : List RawRow
deriving DecidableEq

/-- A normalized task row of the output table. `progressPercent` is `none`
exactly when the `Progress` column is absent from the input (pandas assigns
an all-`NaN` column in that case, not `0`), and likewise `lateFlag`
(`astype(str)` renders a missing cell as `"nan"`, so only a literal
case-insensitive `"true"` sets the flag). -/
structure Task where
  name : Option String
  bucket : Option String
  assignedTo : Option String
  priority : Option String := none
  start : Int
  finish : Int
  durationDays : Int
  progressPercent : Option Nat
  lateFlag : Option Bool := none
deriving DecidableEq

/-- The loaded table: the data-frame columns and the normalized task rows. -/
structure Table where
  columns : List String
  tasks : List Task
deriving DecidableEq

/-- The distinct fatal outcomes of one run of `main`. `keyError` is pandas'
`KeyError`, raised at two places of `load_tasks`: by
`df.dropna(subset=["Start", "Finish"])` when the frame has zero data rows
(`df.apply` on an empty frame returns it unchanged, so the `Start`/`Finish`
columns were never added), and by `df.sort_values` when the `Task Name`
column is missing; `emptyResult` is the `SystemExit` of `main`. -/
inductive RunError where
  | notFound
  | unsupportedFormat
  | missingSheet
  | keyError
  | emptyResult
deriving DecidableEq

/-- `row.get(col)`: the cell value when the column exists, else `None`. -/
def getCell (cols : List String) (col : String) (v : Option String) : Option String :=
  if col ∈ cols then v else none

/-- One coerced date cell: `pd.to_datetime(..., errors="coerce")` is applied
to the column when present; a missing column or a `NaN` cell is absent. -/
def dateCell (cols : List String) (col : String) (v : Option String) : Option Int :=
  (getCell cols col v).bind parseMDY

/-- Normalization of one raw row (the per-row body of `load_tasks`): coerce
the four date cells, derive the schedule, drop the row unless both `Start`
and `Finish` resolved, and compute duration and progress. -/
def normRow (cols : List String) (r : RawRow) : Option Task :=
  match deriveSchedule
      (dateCell cols "Start date" r.startDate)
      (dateCell cols "Due date" r.dueDate)
      (dateCell cols "Created Date" r.createdDate)
      (dateCell cols "Completed Date" r.completedDate) with
  | (some s, some f) =>
      some
        { name := getCell cols "Task Name" r.taskName
          bucket := getCell cols "Bucket Name" r.bucketName
          assignedTo := getCell cols "Assigned To" r.assignedTo
          start := s
          finish := f
          durationDays := f - s + 1
          priority := getCell cols "Priority" r.priority
          progressPercent :=
            if "Progress" ∈ cols then
              some (progressValue (getCell cols "Progress" r.progress))
            else none
          lateFlag :=
            if "Late" ∈ cols then
              some (pyLower ((getCell cols "Late" r.late).getD "nan") == "true")
            else none }
  | _ => none

/-- Ordering on the optional `Task Name` sort key: pandas places `NaN` keys
last (`na_position="last"`), present keys compare lexicographically. -/
def nameLE : Option String → Option String → Prop
  | some a, some b => a ≤ b
  | some _, none => True
  | none, some _ => False
  | none, none => True

instance : DecidableRel nameLE := fun a b =>
  match a, b with
  | some x, some y => inferInstanceAs (Decidable (x ≤ y))
  | some _, none => isTrue trivial
  | none, some _ => isFalse id
  | none, none => isTrue trivial

/-- The sort key of `df.sort_values(by=["Start", "Finish", "Task Name"])`:
lexicographic on start, then finish, then task name. -/
def keyLE (a b : Task) : Prop :=
  a.start < b.start ∨
    (a.start = b.start ∧
      (a.finish < b.finish ∨ (a.finish = b.finish ∧ nameLE a.name b.name)))

instance : DecidableRel keyLE := fun a b => by
  unfold keyLE
  infer_instance

instance : IsTotal Task keyLE where
  total a b := by
    have ntot : ∀ x y : Option String, nameLE x y ∨ nameLE y x := fun x y => by
      match x, y with
      | some x, some y => exact le_total x y
      | some _, none => exact Or.inl trivial
      | none, some _ => exact Or.inr trivial
      | none, none => exact Or.inl trivial
    unfold keyLE
    rcases lt_trichotomy a.start b.start with h | h | h
    · exact Or.inl (Or.inl h)
    · rcases lt_trichotomy a.finish b.finish with h2 | h2 | h2
      · exact Or.inl (Or.inr ⟨h, Or.inl h2⟩)
      · rcases ntot a.name b.name with h3 | h3
        · exact Or.inl (Or.inr ⟨h, Or.inr ⟨h2, h3⟩⟩)
        · exact Or.inr (Or.inr ⟨h.symm, Or.inr ⟨h2.symm, h3⟩⟩)
      · exact Or.inr (Or.inr ⟨h.symm, Or.inl h2⟩)
    · exact Or.inr (Or.inl h)

instance : IsTrans Task keyLE where
  trans a b c h1 h2 := by
    have ntr : ∀ {x y z : Option String}, nameLE x y → nameLE y z → nameLE x z := by
      intro x y z g1 g2
      match x, y, z with
      | some x, some y, some z => exact le_trans g1 g2
      | some _, _, none => trivial
      | none, none, none => trivial
      | none, some _, _ => exact absurd g1 id
      | none, none, some _ => exact absurd g2 id
      | some _, none, some _ => exact absurd g2 id
    unfold keyLE at h1 h2 ⊢
    rcases h1 with h1 | ⟨he1, h1⟩
    · rcases h2 with h2 | ⟨he2, h2⟩
      · exact Or.inl (lt_trans h1 h2)
      · exact Or.inl (he2 ▸ h1)
    · rcases h2 with h2 | ⟨he2, h2⟩
      · exact Or.inl (he1 ▸ h2)
      · refine Or.inr ⟨he1.trans he2, ?_⟩
        rcases h1 with h1 | ⟨hf1, h1⟩
        · rcases h2 with h2 | ⟨hf2, h2⟩
          · exact Or.inl (lt_trans h1 h2)
          · exact Or.inl (hf2 ▸ h1)
        · rcases h2 with h2 | ⟨hf2, h2⟩
          · exact Or.inl (hf1 ▸ h2)
          · exact Or.inr ⟨hf1.trans hf2, ntr h1 h2⟩

/-- The columns `load_tasks` appends to the frame (`pd.concat` adds `Start`
and `Finish`; the assignments add the remaining three). -/
def addedColumns : List String :=
  ["Start", "Finish", "Duration (days)", "Progress %", "Late Flag"]

/-- `_read_planner_export`: accepts `.csv` directly, `.xlsx`/`.xls` when the
`Tasks` sheet exists, and rejects everything else. -/
def readPlannerExport (inp : Input) : Except RunError Unit :=
  if pyLower inp.suffix = ".csv" then .ok ()
  else if pyLower inp.suffix = ".xlsx" ∨ pyLower inp.suffix = ".xls" then
    if "Tasks" ∈ inp.sheets then .ok () else .error .missingSheet
  else .error .unsupportedFormat

/-- `load_tasks`: existence check, format dispatch, column-name stripping,
date coercion + schedule derivation + dropna + duration/progress (all fused
per row in `normRow`), and the final sort. Two `KeyError` paths: with zero
data rows, `df.apply(_derive_schedule, axis=1)` returns the empty frame
without `Start`/`Finish` columns and the `dropna` on those columns raises;
with data rows but no `Task Name` column, `df.sort_values` raises. -/
def loadTasks (inp : Input) : Except RunError Table :=
  if !inp.pathExists then .error .notFound
  else
    match readPlannerExport inp with
    | .error e => .error e
    | .ok () =>
        if inp.rows = [] then .error .keyError
        else if "Task Name" ∈ inp.columns.map pyStrip then
          .ok { columns := inp.columns.map pyStrip ++ addedColumns,
                tasks :=
                  (inp.rows.filterMap (normRow (inp.columns.map pyStrip))).insertionSort keyLE }
        else .error .keyError

/-- `exclude_buckets`: with no patterns or no `Bucket Name` column the frame
is returned unchanged; otherwise rows whose bucket (missing → `""`)
case-sensitively glob-matches any pattern are dropped. -/
def excludeBuckets (tbl : Table) (patterns : List String) : Table :=
  if patterns = [] ∨ "Bucket Name" ∉ tbl.columns then tbl
  else
    { tbl with
      tasks :=
        tbl.tasks.filter
          (fun t => !(patterns.any (fun p => fnmatchcase (t.bucket.getD "") p))) }

/-- The fixed suffix set of `_get_initials` (already lower-case,
punctuation-free). -/
def nameSuffixes : List String :=
  ["phd", "md", "jr", "sr", "ii", "iii", "iv", "esq", "dds", "dvm"]

/-- `re.sub(r"[^a-z]", "", token.lower())`: lower-case, then keep only the
characters `a`-`z`. -/
def normToken (t : String) : String :=
  ⟨(t.data.map Char.toLower).filter (fun c => 'a' ≤ c && c ≤ 'z')⟩

/-- The `while parts and ... : parts.pop()` loop of `_get_initials`: remove
trailing tokens whose normalized form is in the suffix set. -/
def stripSuffixTokens (parts : List String) : List String :=
  ((parts.reverse.dropWhile (fun t => normToken t ∈ nameSuffixes))).reverse

/-- `str.upper()` (ASCII model, character-wise). -/
def strUpper (s : String) : String :=
  ⟨s.data.map Char.toUpper⟩

/-- Python slicing `s[:n]` (by characters). -/
def strTake (s : String) (n : Nat) : String :=
  ⟨s.data.take n⟩

/-- `_get_initials`. -/
def getInitials (name : String) : String :=
  match stripSuffixTokens (pySplitWS (pyStrip name)) with
  | [] => "??"
  | [t] => strUpper (strTake t 2)
  | t :: rest => strUpper (strTake t 1 ++ strTake ((t :: rest).getLast (by simp)) 1)

/-- `_get_assignee_color`: return the stored color, or assign
`AVATAR_COLORS[len(color_map) % len(AVATAR_COLORS)]` on first encounter and
record it (Python dicts preserve insertion order, modelled by appending to an
association list). -/
def getAssigneeColor (name : String) (colorMap : List (String × String)) :
    String × List (String × String) :=
  match colorMap.lookup name with
  | some c => (c, colorMap)
  | none =>
      let c := AVATAR_COLORS.getD (colorMap.length % AVATAR_COLORS.length) ""
      (c, colorMap ++ [(name, c)])

/-- Process a sequence of assignee-name encounters against a color map,
returning the color handed out at each encounter (the calls
`_get_assignee_color(assignee, color_map)` makes across one invocation). -/
def runColorsAux (colorMap : List (String × String)) : List String → List String
  | [] => []
  | n :: ns =>
      match getAssigneeColor n colorMap with
      | (c, m2) => c :: runColorsAux m2 ns

/-- The colors returned for a sequence of encounters within one invocation,
starting from the empty map. -/
def runColors (names : List String) : List String :=
  runColorsAux [] names

/-- The distinct names of a sequence in first-seen order, given an initial
set of already-seen names. -/
def firstSeenAux (seen : List String) : List String → List String
  | [] => []
  | n :: ns => if n ∈ seen then firstSeenAux seen ns else n :: firstSeenAux (n :: seen) ns

/-- The distinct names of a sequence in first-seen order. -/
def firstSeen (names : List String) : List String :=
  firstSeenAux [] names

/-- Index of the first occurrence of a name in a list (length of the list
when absent). -/
def idxOf (l : List String) (n : String) : Nat :=
  match l with
  | [] => 0
  | k :: ks => if k = n then 0 else idxOf ks n + 1

/-! ## Spec-side definitions and witness inputs -/

/-- The last three derivation steps, as one case split on the two resolved
date fields (written from the wording of claim C1: fill a missing start as
finish − 7, a missing finish as start + 7, clamp finish up to start). -/
def specC1Pair : Option Int → Option Int → Option Int × Option Int
  | none, some f => (some (f - 7), some f)
  | some s, none => (some s, some (s + 7))
  | some s, some f => (some s, some (if f < s then s else f))
  | none, none => (none, none)

/-- Modelled from claim C1's wording, for comparison with the code's
`deriveSchedule`: start is the `Start date` field if present else the
`Created Date` field, finish is the `Due date` field if present else the
`Completed Date` field; a missing start becomes finish − 7, a missing finish
becomes start + 7, and a finish before the start is clamped to the start. -/
def deriveScheduleSpecC1 (sd dd cd comp : Option Int) : Option Int × Option Int :=
  specC1Pair (if sd.isSome then sd else cd) (if dd.isSome then dd else comp)

/-- Witness table for instantiating the bucket-exclusion claims. -/
def tblW : Table :=
  { columns := ["Task Name", "Bucket Name", "Start", "Finish",
                "Duration (days)", "Progress %", "Late Flag"]
    tasks :=
      [{ name := some "a", bucket := some "Phase 4.1 cleanup", assignedTo := none,
         start := 0, finish := 3, durationDays := 4, progressPercent := none },
       { name := some "b", bucket := none, assignedTo := none,
         start := 1, finish := 2, durationDays := 2, progressPercent := none },
       { name := some "c", bucket := some "Phase 2", assignedTo := none,
         start := 2, finish := 2, durationDays := 1, progressPercent := none }] }

/-- Witness input for the loaded-table claims: three rows — one with start
and due (due before start, so clamped), one with created and completed, one
with no dates (dropped). -/
def inpW2 : Input :=
  { pathExists := true
    suffix := ".csv"
    sheets := []
    columns := ["Task Name", "Bucket Name", "Start date", "Due date",
                "Created Date", "Completed Date", "Progress"]
    rows :=
      [{ taskName := some "beta", startDate := some "01/10/2024",
         dueDate := some "01/03/2024", progress := some "In progress" },
       { taskName := some "alpha", createdDate := some "01/02/2024",
         completedDate := some "01/05/2024", progress := some "Complete" },
       { taskName := some "gamma" }] }

/-- The table `inpW2` loads to (the loader cannot fail on it). -/
def tblW2 : Table :=
  (loadTasks inpW2).toOption.getD { columns := [], tasks := [] }

/-- The canonical color map after some distinct names have been inserted:
the `j`-th key of `ks` (counting from `i`) carries palette color
`(i + j) % palette size`. The invariant of `_get_assignee_color`'s map. -/
def canonFrom (i : Nat) : List String → List (String × String)
  | [] => []
  | k :: ks => (k, AVATAR_COLORS.getD (i % AVATAR_COLORS.length) "") :: canonFrom (i + 1) ks

/-- `_derive_schedule` agrees with the four-way case split of `specC1Pair`
applied to (start if present else created, due if present else completed). -/
theorem deriveSchedule_eq_specC1Pair (sd dd cd comp : Option Int) :
    deriveSchedule sd dd cd comp =
      specC1Pair (if sd.isSome then sd else cd) (if dd.isSome then dd else comp) := by
  cases sd <;> cases dd <;> cases cd <;> cases comp <;>
    simp only [deriveSchedule, orElseDate, deriveFillStart, deriveFillFinish,
      deriveClampFinish, specC1Pair, DEFAULT_DURATION_DAYS, Option.isSome_none,
      Option.isSome_some, Bool.false_eq_true, if_true, if_false, ite_true, ite_false] <;>
    (try split_ifs) <;>
    first
      | rfl
      | (exfalso; omega)

/-- `specC1Pair` never produces a finish before the start. -/
theorem specC1Pair_le {x y : Option Int} {s f : Int}
    (h : specC1Pair x y = (some s, some f)) : s ≤ f := by
  match x, y with
  | none, none => simp [specC1Pair] at h
  | none, some f0 =>
      simp only [specC1Pair, Prod.mk.injEq, Option.some.injEq] at h
      omega
  | some s0, none =>
      simp only [specC1Pair, Prod.mk.injEq, Option.some.injEq] at h
      omega
  | some s0, some f0 =>
      simp only [specC1Pair, Prod.mk.injEq, Option.some.injEq] at h
      obtain ⟨h1, h2⟩ := h
      split at h2 <;> omega

/-- Whenever `_derive_schedule` resolves both dates, the finish does not
precede the start (the clamp guarantees it). -/
theorem deriveSchedule_le {sd dd cd comp : Option Int} {s f : Int}
    (h : deriveSchedule sd dd cd comp = (some s, some f)) : s ≤ f := by
  rw [deriveSchedule_eq_specC1Pair] at h
  exact specC1Pair_le h

/-- A normalized row satisfies the duration/ordering invariants. -/
theorem normRow_some {cols : List String} {r : RawRow} {t : Task}
    (h : normRow cols r = some t) :
    t.start ≤ t.finish ∧ t.durationDays = t.finish - t.start + 1 ∧ 1 ≤ t.durationDays := by
  unfold normRow at h
  split at h
  next s f hd =>
    simp only [Option.some.injEq] at h
    subst h
    have := deriveSchedule_le hd
    refine ⟨this, rfl, by simp only; omega⟩
  next => exact absurd h (by simp)

/-! ## Claim C1 -/

/-- C1: for every raw row, schedule derivation takes start from the
`Start date` else `Created Date` field and finish from `Due date` else
`Completed Date`, fills a missing start as finish − 7 days, fills a missing
finish as start + 7 days, and clamps a finish earlier than the start to the
start instead of dropping the row. -/
theorem c1_derive_schedule_correct (sd dd cd comp : Option Int) :
    deriveSchedule sd dd cd comp = deriveScheduleSpecC1 sd dd cd comp := by
  unfold deriveScheduleSpecC1
  exact deriveSchedule_eq_specC1Pair sd dd cd comp

/-! ## Claim C3 (code bug)

The source normalizes a status with `.str.strip().str.title()` before the
dictionary lookup, but `str.title()` produces `"In Progress"` and
`"Not Started"`, while the keys of `PROGRESS_TO_PERCENT` are `"In progress"`
and `"Not started"`; hence every spelling of an in-progress status falls to
the `fillna(0)` default instead of mapping to 50. -/

/-- C3 (refuting evaluation): every spelling of "in progress" maps to 0 even
though the code's own table `PROGRESS_TO_PERCENT` assigns 50 to
`"In progress"`; the title-cased form of `"in progress"` is `"In Progress"`,
which is not a key of the table. The complete/completed and default cases
behave as claimed. -/
theorem c3_progress_mapping_bug :
    progressValue (some "In progress") = 0 ∧
    progressValue (some "in progress") = 0 ∧
    progressValue (some " In Progress ") = 0 ∧
    progressValue (some "In Progress") = 0 ∧
    progressValue (some "Not started") = 0 ∧
    progressValue (some "not started") = 0 ∧
    progressValue (some "complete") = 100 ∧
    progressValue (some "Complete") = 100 ∧
    progressValue (some "completed") = 100 ∧
    progressValue (some "Completed") = 100 ∧
    progressValue (some "unrecognized") = 0 ∧
    progressValue none = 0 ∧
    PROGRESS_TO_PERCENT.lookup "In progress" = some 50 ∧
    pyTitle (pyStrip " in progress ") = "In Progress" := by
  decide

/-! ## Claim C5: bucket exclusion semantics -/

/-- C5: with a non-empty pattern list (and the bucket column present, which
every normalized table of this loader has), a row is removed exactly when its
bucket — the empty string when absent — case-sensitively glob-matches at
least one pattern; all other rows are kept unchanged, in order. The concrete
conjuncts pin the glob semantics: `*4.1*` matches the literal substring
`4.1` only, and matching is case-sensitive. -/
theorem c5_bucket_exclusion (tbl : Table) (patterns : List String)
    (hne : patterns ≠ []) (hcol : "Bucket Name" ∈ tbl.columns) :
    (excludeBuckets tbl patterns).tasks =
        tbl.tasks.filter
          (fun t => !(patterns.any (fun p => fnmatchcase (t.bucket.getD "") p))) ∧
    (∀ t ∈ tbl.tasks,
        t ∈ (excludeBuckets tbl patterns).tasks ↔
          patterns.any (fun p => fnmatchcase (t.bucket.getD "") p) = false) ∧
    (excludeBuckets tbl patterns).columns = tbl.columns ∧
    fnmatchcase "Phase 4.1 cleanup" "*4.1*" = true ∧
    fnmatchcase "Phase 41 cleanup" "*4.1*" = false ∧
    fnmatchcase "bucket" "Bucket" = false := by
  have hne2 : ¬(patterns = [] ∨ "Bucket Name" ∉ tbl.columns) := by
    push_neg
    exact ⟨hne, hcol⟩
  refine ⟨?_, ?_, ?_, by decide, by decide, by decide⟩
  · simp only [excludeBuckets, if_neg hne2]
  · intro t ht
    simp only [excludeBuckets, if_neg hne2, List.mem_filter, ht, true_and,
      Bool.not_eq_eq_eq_not, Bool.not_true]
  · simp only [excludeBuckets, if_neg hne2]

theorem c5_bucket_exclusion_witness :
    (excludeBuckets tblW ["*4.1*"]).tasks =
      tblW.tasks.filter
        (fun t => !(["*4.1*"].any (fun p => fnmatchcase (t.bucket.getD "") p))) :=
  (c5_bucket_exclusion tblW ["*4.1*"] (by decide) (by decide)).1

/-! ## Claim C10: tables without a bucket column -/

/-- C10: when the table has no `Bucket Name` column, `exclude_buckets`
returns the frame unchanged for every pattern list (even `["*"]`); by
contrast, in a table that has the column, a row whose bucket value is merely
absent is matched as the empty string and removed by `"*"`. -/
theorem c10_exclude_no_bucket_column :
    (∀ (tbl : Table) (patterns : List String),
        "Bucket Name" ∉ tbl.columns → excludeBuckets tbl patterns = tbl) ∧
    (∀ (tbl : Table) (t : Task),
        "Bucket Name" ∈ tbl.columns → t.bucket = none →
          t ∉ (excludeBuckets tbl ["*"]).tasks) := by
  constructor
  · intro tbl patterns h
    simp only [excludeBuckets, if_pos (Or.inr h)]
  · intro tbl t hcol hb hmem
    have hne2 : ¬((["*"] : List String) = [] ∨ "Bucket Name" ∉ tbl.columns) := by
      push_neg
      exact ⟨by simp, hcol⟩
    rw [excludeBuckets, if_neg hne2] at hmem
    simp only [List.mem_filter, hb] at hmem
    exact absurd hmem.2 (by decide)

theorem c10_exclude_no_bucket_column_witness :
    excludeBuckets { columns := ["Task Name"], tasks := tblW.tasks } ["*"] =
        { columns := ["Task Name"], tasks := tblW.tasks } ∧
      { name := some "b", bucket := none, assignedTo := none,
        start := 1, finish := 2, durationDays := 2,
        progressPercent := none : Task } ∉ (excludeBuckets tblW ["*"]).tasks :=
  ⟨c10_exclude_no_bucket_column.1 _ ["*"] (by decide),
   c10_exclude_no_bucket_column.2 tblW _ (by decide) rfl⟩

/-! ## Claim C7: lenient date parsing -/

/-- C8: initials split the name on whitespace, repeatedly drop trailing
suffix tokens (compared case-insensitively after removing non-alphabetic
characters), then: no tokens → `"??"`, one token → its first two characters
upper-cased, otherwise first character of first token plus first character
of last token, upper-cased; with the spec's four concrete examples. -/
theorem c8_initials :
    (∀ name : String,
        (stripSuffixTokens (pySplitWS (pyStrip name)) = [] → getInitials name = "??") ∧
        (∀ t, stripSuffixTokens (pySplitWS (pyStrip name)) = [t] →
            getInitials name = strUpper (strTake t 2)) ∧
        (∀ t u ts, stripSuffixTokens (pySplitWS (pyStrip name)) = t :: u :: ts →
            getInitials name =
              strUpper (strTake t 1 ++ strTake ((t :: u :: ts).getLast (by simp)) 1))) ∧
    getInitials "Jane Q. Public" = "JP" ∧
    getInitials "John Smith Jr" = "JS" ∧
    getInitials "Madonna" = "MA" ∧
    getInitials "" = "??" ∧
    getInitials "   " = "??" := by
  refine ⟨?_, by decide, by decide, by decide, by decide, by decide⟩
  intro name
  refine ⟨?_, ?_, ?_⟩
  · intro h
    unfold getInitials
    rw [h]
  · intro t h
    unfold getInitials
    rw [h]
  · intro t u ts h
    unfold getInitials
    rw [h]

theorem c8_initials_witness :
    getInitials "Ann B Cee" =
      strUpper (strTake "Ann" 1 ++ strTake (["Ann", "B", "Cee"].getLast (by simp)) 1) :=
  (c8_initials.1 "Ann B Cee").2.2 "Ann" "B" ["Cee"] (by decide)

/-! ## Claims C2 and C4: shape of a successfully loaded table -/

/-- A successful `load_tasks` yields exactly the stripped columns plus the
appended ones, and the sorted normalized rows. -/
theorem loadTasks_ok {inp : Input} {tbl : Table} (h : loadTasks inp = Except.ok tbl) :
    tbl.columns = inp.columns.map pyStrip ++ addedColumns ∧
    tbl.tasks =
      (inp.rows.filterMap (normRow (inp.columns.map pyStrip))).insertionSort keyLE := by
  unfold loadTasks at h
  split at h
  · exact absurd h (by simp)
  · split at h
    next e => exact absurd h (by simp)
    next =>
      split at h
      · exact absurd h (by simp)
      · split at h
        · simp only [Except.ok.injEq] at h
          rw [← h]
          exact ⟨rfl, rfl⟩
        · exact absurd h (by simp)

/-- A row normalizes to `some` task exactly when schedule derivation
resolves both dates. -/
theorem normRow_isSome (cols : List String) (r : RawRow) :
    (normRow cols r).isSome = true ↔
      ∃ s f,
        deriveSchedule (dateCell cols "Start date" r.startDate)
            (dateCell cols "Due date" r.dueDate)
            (dateCell cols "Created Date" r.createdDate)
            (dateCell cols "Completed Date" r.completedDate) =
          (some s, some f) := by
  unfold normRow
  rcases hd : deriveSchedule (dateCell cols "Start date" r.startDate)
      (dateCell cols "Due date" r.dueDate)
      (dateCell cols "Created Date" r.createdDate)
      (dateCell cols "Completed Date" r.completedDate) with ⟨os, of⟩
  cases os <;> cases of
  · simp
  · simp
  · simp
  · next s f =>
      simp only [Option.isSome_some, true_iff]
      exact ⟨s, f, rfl⟩

/-- C2: the output table is (a permutation of — the subsequent sort is the
only reordering) the rows on which normalization succeeded; a row normalizes
iff schedule derivation yields both dates; and every retained row has
`start ≤ finish` and `duration_days = finish − start + 1 ≥ 1`. -/
theorem c2_normalization_invariants (inp : Input) (tbl : Table)
    (h : loadTasks inp = Except.ok tbl) :
    tbl.tasks.Perm (inp.rows.filterMap (normRow (inp.columns.map pyStrip))) ∧
    (∀ r, r ∈ inp.rows →
        ((normRow (inp.columns.map pyStrip) r).isSome = true ↔
          ∃ s f,
            deriveSchedule
                (dateCell (inp.columns.map pyStrip) "Start date" r.startDate)
                (dateCell (inp.columns.map pyStrip) "Due date" r.dueDate)
                (dateCell (inp.columns.map pyStrip) "Created Date" r.createdDate)
                (dateCell (inp.columns.map pyStrip) "Completed Date" r.completedDate) =
              (some s, some f))) ∧
    (∀ t, t ∈ tbl.tasks →
        t.start ≤ t.finish ∧ t.durationDays = t.finish - t.start + 1 ∧
          1 ≤ t.durationDays) := by
  obtain ⟨hc, ht⟩ := loadTasks_ok h
  refine ⟨?_, fun r _ => normRow_isSome _ r, ?_⟩
  · rw [ht]
    exact List.perm_insertionSort keyLE _
  · intro t hmem
    rw [ht] at hmem
    rw [List.mem_insertionSort] at hmem
    obtain ⟨r, hr, hnr⟩ := List.mem_filterMap.mp hmem
    exact normRow_some hnr

theorem c2_normalization_invariants_witness :
    tblW2.tasks.Perm (inpW2.rows.filterMap (normRow (inpW2.columns.map pyStrip))) :=
  (c2_normalization_invariants inpW2 tblW2 (by rfl)).1

/-- C4: after normalization and bucket exclusion the rows are pairwise
ordered by the `(start, finish, name)` key — names compared
lexicographically, a missing name sorting last — and rows with equal start
and finish are ordered by name. -/
theorem c4_sorted_output (inp : Input) (patterns : List String) (tbl : Table)
    (h : loadTasks inp = Except.ok tbl) :
    ((excludeBuckets tbl patterns).tasks).Pairwise
      (fun a b =>
        keyLE a b ∧ (a.start = b.start → a.finish = b.finish → nameLE a.name b.name)) := by
  obtain ⟨hc, ht⟩ := loadTasks_ok h
  have hsorted : tbl.tasks.Pairwise keyLE := by
    rw [ht]
    exact List.sorted_insertionSort keyLE _
  have hsub : (excludeBuckets tbl patterns).tasks.Sublist tbl.tasks := by
    unfold excludeBuckets
    split
    · exact List.Sublist.refl _
    · exact List.filter_sublist _
  have hp2 : ((excludeBuckets tbl patterns).tasks).Pairwise keyLE :=
    hsorted.sublist hsub
  refine hp2.imp ?_
  intro a b hab
  refine ⟨hab, fun hs hf => ?_⟩
  rcases hab with h1 | ⟨he, h2⟩
  · rw [hs] at h1
    exact absurd h1 (lt_irrefl _)
  · rcases h2 with h2 | ⟨he2, h3⟩
    · rw [hf] at h2
      exact absurd h2 (lt_irrefl _)
    · exact h3

theorem c4_sorted_output_witness :
    ((excludeBuckets tblW2 ["Done*"]).tasks).Pairwise
      (fun a b =>
        keyLE a b ∧ (a.start = b.start → a.finish = b.finish → nameLE a.name b.name)) :=
  c4_sorted_output inpW2 ["Done*"] tblW2 (by rfl)

/-! ## Claim C9: color assignment -/

theorem canonFrom_length (i : Nat) (ks : List String) :
    (canonFrom i ks).length = ks.length := by
  induction ks generalizing i with
  | nil => rfl
  | cons k ks ih => simp [canonFrom, ih]

theorem lookup_canonFrom_mem {ks : List String} {n : String} (i : Nat) (h : n ∈ ks) :
    (canonFrom i ks).lookup n =
      some (AVATAR_COLORS.getD ((i + idxOf ks n) % AVATAR_COLORS.length) "") := by
  induction ks generalizing i with
  | nil => simp at h
  | cons k ks ih =>
      by_cases hk : k = n
      · subst hk
        simp [canonFrom, List.lookup, idxOf]
      · have hn : n ∈ ks := by
          rcases List.mem_cons.mp h with h1 | h1
          · exact absurd h1.symm hk
          · exact h1
        have hb : (n == k) = false := by
          simp only [beq_eq_false_iff_ne, ne_eq]
          exact fun e => hk e.symm
        simp only [canonFrom, List.lookup, hb, idxOf, if_neg hk]
        rw [ih (i + 1) hn]
        have harith : i + (idxOf ks n + 1) = i + 1 + idxOf ks n := by omega
        rw [harith]

theorem lookup_canonFrom_not_mem {ks : List String} {n : String} (i : Nat) (h : n ∉ ks) :
    (canonFrom i ks).lookup n = none := by
  induction ks generalizing i with
  | nil => rfl
  | cons k ks ih =>
      have hk : k ≠ n := fun e => h (by rw [e]; exact List.mem_cons_self n ks)
      have hb : (n == k) = false := by
        simp only [beq_eq_false_iff_ne, ne_eq]
        exact fun e => hk e.symm
      have hn : n ∉ ks := fun hx => h (List.mem_cons_of_mem k hx)
      simp only [canonFrom, List.lookup, hb]
      exact ih (i + 1) hn

theorem canonFrom_append (i : Nat) (ks : List String) (n : String) :
    canonFrom i (ks ++ [n]) =
      canonFrom i ks ++
        [(n, AVATAR_COLORS.getD ((i + ks.length) % AVATAR_COLORS.length) "")] := by
  induction ks generalizing i with
  | nil => simp [canonFrom]
  | cons k ks ih =>
      simp only [List.cons_append, canonFrom, List.length_cons, List.cons.injEq, true_and]
      rw [show i + (ks.length + 1) = i + 1 + ks.length from by omega]
      exact ih (i + 1)

theorem firstSeenAux_congr {s1 s2 : List String} (h : ∀ x, x ∈ s1 ↔ x ∈ s2)
    (ns : List String) : firstSeenAux s1 ns = firstSeenAux s2 ns := by
  induction ns generalizing s1 s2 with
  | nil => rfl
  | cons n ns ih =>
      simp only [firstSeenAux]
      by_cases hn : n ∈ s1
      · rw [if_pos hn, if_pos ((h n).mp hn)]
        exact ih h
      · rw [if_neg hn, if_neg (fun hx => hn ((h n).mpr hx))]
        exact congrArg _ (ih fun x => by simp only [List.mem_cons, h x])

theorem idxOf_append_left {ks : List String} {n : String} (h : n ∈ ks)
    (t : List String) : idxOf (ks ++ t) n = idxOf ks n := by
  induction ks with
  | nil => simp at h
  | cons k ks ih =>
      by_cases hk : k = n
      · simp [idxOf, hk]
      · have hn : n ∈ ks := by
          rcases List.mem_cons.mp h with h1 | h1
          · exact absurd h1.symm hk
          · exact h1
        simp [idxOf, hk, ih hn]

theorem idxOf_append_self {ks : List String} {n : String} (h : n ∉ ks)
    (t : List String) : idxOf (ks ++ n :: t) n = ks.length := by
  induction ks with
  | nil => simp [idxOf]
  | cons k ks ih =>
      have hk : k ≠ n := fun e => h (by rw [e]; exact List.mem_cons_self n ks)
      have hn : n ∉ ks := fun hx => h (List.mem_cons_of_mem k hx)
      simp [idxOf, hk, ih hn]

/-- The induction behind C9: starting from the canonical map holding the
distinct names `ks`, processing `ns` hands out, for every encounter, the
palette color at the index of that name's first appearance in
`ks ++ firstSeenAux ks ns`, modulo the palette size. -/
theorem runColorsAux_canonFrom (ns : List String) : ∀ ks : List String,
    runColorsAux (canonFrom 0 ks) ns =
      ns.map (fun n =>
        AVATAR_COLORS.getD (idxOf (ks ++ firstSeenAux ks ns) n % AVATAR_COLORS.length)
          "") := by
  induction ns with
  | nil => intro ks; rfl
  | cons n ns ih =>
      intro ks
      by_cases hmem : n ∈ ks
      · have hl := lookup_canonFrom_mem (n := n) 0 hmem
        simp only [runColorsAux, getAssigneeColor, hl, List.map_cons, firstSeenAux,
          if_pos hmem]
        rw [ih ks, idxOf_append_left hmem]
        simp only [Nat.zero_add]
      · have hl := lookup_canonFrom_not_mem (n := n) 0 hmem
        simp only [runColorsAux, getAssigneeColor, hl, List.map_cons, firstSeenAux,
          if_neg hmem, canonFrom_length]
        have hnew : canonFrom 0 ks ++
            [(n, AVATAR_COLORS.getD (ks.length % AVATAR_COLORS.length) "")] =
            canonFrom 0 (ks ++ [n]) := by
          rw [canonFrom_append 0 ks n]
          simp only [Nat.zero_add]
        rw [hnew, ih (ks ++ [n]), idxOf_append_self hmem]
        have hfs : firstSeenAux (ks ++ [n]) ns = firstSeenAux (n :: ks) ns :=
          firstSeenAux_congr
            (fun x => by
              simp only [List.mem_append, List.mem_cons, List.not_mem_nil, or_false]
              exact or_comm) ns
        rw [hfs, List.append_assoc]
        rfl

/-- C9: within one invocation, the color handed out at every encounter of a
name is the palette entry at (index of the name in first-seen order) mod 15;
so the first distinct assignee gets palette index 0, the 16th wraps to index
0 again, and repeat encounters always return the color stored at the first
encounter. -/
theorem c9_color_assignment :
    AVATAR_COLORS.length = 15 ∧
    (∀ names : List String,
        runColors names =
          names.map (fun n =>
            AVATAR_COLORS.getD (idxOf (firstSeen names) n % AVATAR_COLORS.length) "")) ∧
    runColors ["ann", "bob", "ann"] = ["#E57373", "#81C784", "#E57373"] ∧
    runColors ["a1", "a2", "a3", "a4", "a5", "a6", "a7", "a8", "a9", "a10", "a11",
        "a12", "a13", "a14", "a15", "a16"] =
      ["#E57373", "#81C784", "#64B5F6", "#FFD54F", "#BA68C8",
       "#4DB6AC", "#FF8A65", "#A1887F", "#90A4AE", "#F06292",
       "#AED581", "#7986CB", "#FFB74D", "#4DD0E1", "#9575CD", "#E57373"] := by
  refine ⟨by decide, ?_, by decide, by decide⟩
  intro names
  have h := runColorsAux_canonFrom names []
  simpa only [canonFrom, List.nil_append, runColors, firstSeen] using h

/-! ## Claim C6: failure taxonomy -/

end GanttGen
